import Mathlib

/-!
Verification of the `homeworkPDF` invoice generator (`main.py`): a shallow
embedding of its row-normalization pipeline, font registration, header schema
check and PDF render boundary, together with theorems settling the spec claims.

Modelling conventions:
* Python strings are `List Char` (`Str`); `str.strip` strips ASCII whitespace.
* Python `float` values are IEEE-754 binary64: a finite double is a sign bit
  together with its exact nonnegative magnitude (a representable binary64
  value, held as a rational).  Parsing a decimal literal and multiplying
  doubles round to nearest, ties to even, with overflow to infinity and
  underflow to (signed) zero, as CPython's `float()` and `*` do; `%.2f`
  renders the double's exact value rounded half-to-even to two fraction
  digits, with the sign taken from the sign bit (so `-0.00` can appear).
  Non-ASCII decimal digits accepted by CPython's `float()` are outside the
  model.
* Side effects (stdout progress lines, stderr diagnostics) are event lists.
* Library calls that may raise are driven by explicit environments recording
  which call fails (`FontEnv`, `RenderEnv`).
-/

abbrev Str := List Char

/-- ASCII whitespace stripped by Python `str.strip()`. -/
def isPySpace (c : Char) : Bool :=
  c = ' ' || c = '\t' || c = '\n' || c = '\r' || c = '\x0b' || c = '\x0c'

/-- Python `s.strip()`: drop whitespace at both ends. -/
def pyStrip (s : Str) : Str :=
  ((s.dropWhile isPySpace).reverse.dropWhile isPySpace).reverse

/-- One character of `s.replace(",", ".")`. -/
def commaDot (c : Char) : Char :=
  if c = ',' then '.' else c

/-- Python `s.replace(",", ".")` for the single-character arguments used here. -/
def replComma (s : Str) : Str :=
  s.map commaDot

/-- Python `x or d` for `x : Optional[str]`: `None` and `""` are falsy. -/
def pyOr (o : Option Str) (d : Str) : Str :=
  match o with
  | none => d
  | some s => if s = [] then d else s

/-- Numeric value of a list of decimal digit characters. -/
def digitsToNat (ds : Str) : Nat :=
  ds.foldl (fun n c => n * 10 + (c.toNat - 48)) 0

/-- Consume a run of ASCII digits possibly separated by single underscores
(PEP 515), as accepted inside Python `float()` literals.  Returns the digits
(underscores removed) and the remaining input; `none` on a malformed
underscore (leading, trailing, doubled, or next to a non-digit), which makes
the whole `float()` call fail. -/
def chompDigitsAux : Str → Str → Option (Str × Str)
  | acc, [] => some (acc.reverse, [])
  | acc, c :: cs =>
    if c.isDigit then chompDigitsAux (c :: acc) cs
    else if c = '_' then
      match acc, cs with
      | _ :: _, d :: ds => if d.isDigit then chompDigitsAux (d :: acc) ds else none
      | _, _ => none
    else some (acc.reverse, c :: cs)

/-- Optional sign of a Python float literal: returns (isNegative, rest). -/
def parseSign : Str → Bool × Str
  | '+' :: cs => (false, cs)
  | '-' :: cs => (true, cs)
  | cs => (false, cs)

/-- Optional exponent part `([eE][+-]?digits)?` of a Python float literal:
returns the exponent value and the rest, `none` when an `e` is present but
malformed. -/
def parseExp (s : Str) : Option (Int × Str) :=
  match s with
  | 'e' :: cs | 'E' :: cs =>
    let sg := parseSign cs
    match chompDigitsAux [] sg.2 with
    | some (ds, rest) =>
      if ds = [] then none
      else some ((if sg.1 then -(digitsToNat ds : Int) else (digitsToNat ds : Int)), rest)
    | none => none
  | _ => some (0, s)

/-- Exact magnitude of the decimal literal with the given mantissa digits,
fraction length and decimal exponent, as a fraction `n / d` of naturals
(`d > 0`). -/
def decFrac (mantDigits : Str) (fracLen : Nat) (ex : Int) : Nat × Nat :=
  let m := digitsToNat mantDigits
  let e : Int := ex - (fracLen : Int)
  if 0 ≤ e then (m * 10 ^ e.toNat, 1)
  else (m, 10 ^ (-e).toNat)

/-- Numeric (non-inf/nan) body of a Python float literal after the sign:
`digits [. digits] [exp]` with at least one digit in the mantissa.  Returns
the exact magnitude as a fraction of naturals and the unconsumed rest. -/
def parseNumber (s : Str) : Option ((Nat × Nat) × Str) := do
  let (ipart, rest) ← chompDigitsAux [] s
  let (fpart, rest2) ←
    (match rest with
     | '.' :: cs => chompDigitsAux [] cs
     | _ => some (([] : Str), rest))
  if ipart = [] && fpart = [] then none
  else
    let (ex, rest3) ← parseExp rest2
    some (decFrac (ipart ++ fpart) fpart.length ex, rest3)

/-- Result of Python `float(s)`: a finite binary64 (sign bit and exact
nonnegative magnitude, a representable binary64 value held as a rational),
an infinity, or a nan. -/
inductive PyFloat where
  | finite (neg : Bool) (mag : ℚ)
  | inf (neg : Bool)
  | nan
deriving DecidableEq

/-- ASCII lowercase, for the case-insensitive `inf`/`infinity`/`nan` keywords. -/
def lowerAscii (c : Char) : Char :=
  if 'A' ≤ c && c ≤ 'Z' then Char.ofNat (c.toNat + 32) else c

/-- Round `n / d` (with `d > 0`) to the nearest integer, ties to even. -/
def rheScaled (n d : Int) : Int :=
  let f := Int.fdiv n d
  let rem := n - f * d
  if 2 * rem < d then f
  else if d < 2 * rem then f + 1
  else if f % 2 = 0 then f else f + 1

/-- Fuel-driven floor base-2 logarithm (the fuel only bounds the recursion
depth, which is the bit length). -/
def log2Fuel : Nat → Nat → Nat
  | 0, _ => 0
  | fuel + 1, n => if n ≤ 1 then 0 else log2Fuel fuel (n / 2) + 1

/-- Floor base-2 logarithm of `n` (for `n ≥ 1`). -/
def natLog2 (n : Nat) : Nat :=
  log2Fuel n n

/-- The exponent `e` with `2 ^ e ≤ n / d < 2 ^ (e + 1)`, for `n, d ≥ 1`. -/
def fracLog2 (n d : Nat) : Int :=
  let e0 : Int := (natLog2 n : Int) - (natLog2 d : Int)
  if 0 ≤ e0 then (if d * 2 ^ e0.toNat ≤ n then e0 else e0 - 1)
  else (if d ≤ n * 2 ^ (-e0).toNat then e0 else e0 - 1)

/-- Round `(n / d) * 2 ^ s` (with `d > 0`) to the nearest integer, ties to
even. -/
def rheFracScaled (n d : Nat) (s : Int) : Int :=
  if 0 ≤ s then rheScaled ((n : Int) * (2 : Int) ^ s.toNat) (d : Int)
  else rheScaled (n : Int) ((d : Int) * (2 : Int) ^ (-s).toNat)

/-- Round the nonnegative exact fraction `n / d` (`d > 0`) to the nearest
IEEE-754 binary64 magnitude, ties to even: normal numbers carry a 53-bit
significand, values below `2 ^ (-1022)` are rounded on the subnormal grid
`2 ^ (-1074)` (underflowing to zero when below half an ulp), and `none`
models overflow to infinity (a rounded result of `2 ^ 1024`). -/
def roundMagFrac (n d : Nat) : Option ℚ :=
  if n = 0 then some (mkRat 0 1)
  else
    let e := fracLog2 n d
    if e < -1022 then
      some (mkRat (rheFracScaled n d 1074) (2 ^ 1074))
    else
      let k := rheFracScaled n d (52 - e)
      let ke : Int × Int :=
        if k = (2 : Int) ^ 53 then ((2 : Int) ^ 52, e + 1) else (k, e)
      if 1023 < ke.2 then none
      else if 0 ≤ ke.2 - 52 then some (mkRat (ke.1 * (2 : Int) ^ (ke.2 - 52).toNat) 1)
      else some (mkRat ke.1 (2 ^ (52 - ke.2).toNat))

/-- Python `float(s)`: strip whitespace, optional sign, then the keywords
`inf`/`infinity`/`nan` (case-insensitive) or a numeric literal consuming the
whole string, rounded to the nearest binary64 (over-range literals give an
infinity, as CPython does).  `none` models `ValueError`. -/
def pyFloat (s : Str) : Option PyFloat :=
  let t := pyStrip s
  let sg := parseSign t
  let lw := sg.2.map lowerAscii
  if lw = "inf".data || lw = "infinity".data then some (.inf sg.1)
  else if lw = "nan".data then some .nan
  else
    match parseNumber sg.2 with
    | some (nd, []) =>
      match roundMagFrac nd.1 nd.2 with
      | none => some (.inf sg.1)
      | some m => some (.finite sg.1 m)
    | _ => none

/-- IEEE-754 binary64 multiplication on `PyFloat`: sign is the xor of the
signs (so zeros are signed), finite magnitudes multiply exactly and are
rounded back to binary64, overflowing to infinity; `inf * 0` is nan. -/
def pfMul : PyFloat → PyFloat → PyFloat
  | .nan, _ => .nan
  | _, .nan => .nan
  | .inf n1, .inf n2 => .inf (xor n1 n2)
  | .inf n1, .finite n2 m2 => if m2.num = 0 then .nan else .inf (xor n1 n2)
  | .finite n1 m1, .inf n2 => if m1.num = 0 then .nan else .inf (xor n1 n2)
  | .finite n1 m1, .finite n2 m2 =>
    match roundMagFrac (m1.num.toNat * m2.num.toNat) (m1.den * m2.den) with
    | none => .inf (xor n1 n2)
    | some m => .finite (xor n1 n2) m

/-- Round `100 * x` to the nearest integer, ties to even. -/
def round2 (x : ℚ) : Int :=
  rheScaled (100 * x.num) (x.den : Int)

/-- The decimal digit character for `n < 10`. -/
def digitChar (n : Nat) : Char :=
  match n with
  | 0 => '0' | 1 => '1' | 2 => '2' | 3 => '3' | 4 => '4'
  | 5 => '5' | 6 => '6' | 7 => '7' | 8 => '8' | _ => '9'

/-- Decimal digits of `n`, most significant first (fuel-driven). -/
def natDigitsGo : Nat → Nat → Str → Str
  | 0, _, acc => acc
  | fuel + 1, n, acc =>
    let acc' := digitChar (n % 10) :: acc
    if n < 10 then acc' else natDigitsGo fuel (n / 10) acc'

/-- Decimal digits of `n`, most significant first. -/
def natDigits (n : Nat) : Str :=
  natDigitsGo (n + 1) n []

/-- Python `f"{x:.2f}"` on the model: fixed-point with exactly two fraction
digits for finite values (digits from the double's exact magnitude rounded
half-to-even, sign from the sign bit, so `-0.00` can appear),
`inf`/`-inf`/`nan` otherwise. -/
def format2f (v : PyFloat) : Str :=
  match v with
  | .nan => "nan".data
  | .inf neg => if neg then ("-inf".data) else ("inf".data)
  | .finite neg x =>
    let a := (round2 x).natAbs
    (if neg then ['-'] else []) ++ natDigits (a / 100) ++
      ['.', digitChar (a % 100 / 10), digitChar (a % 10)]

/-- One raw CSV record as seen by the row loop: `row.get(col)` for the three
columns the program reads (`none` models an absent key / `None` restval). -/
structure RawRow where
  product : Option Str
  price : Option Str
  qty : Option Str
deriving DecidableEq

/-- One normalized table row `(product, price, qty, total)` appended to
`table_rows`. -/
structure LineItem where
  product : Str
  price : Str
  qty : Str
  total : Str
deriving DecidableEq

/-- Observable console output of the row loop: a stdout progress line naming
the product, or the stderr diagnostic naming the offending raw row. -/
inductive Ev where
  | progress (product : Str)
  | skipDiag (row : RawRow)
deriving DecidableEq

/-- Model of `(row.get("product") or "").strip()`. -/
def normProduct (r : RawRow) : Str :=
  pyStrip (pyOr r.product [])

/-- Model of `(row.get("price") or "0").strip().replace(",", ".")`. -/
def normPrice (r : RawRow) : Str :=
  replComma (pyStrip (pyOr r.price ['0']))

/-- Model of `(row.get("qty") or "0").strip().replace(",", ".")`. -/
def normQty (r : RawRow) : Str :=
  replComma (pyStrip (pyOr r.qty ['0']))

/-- One iteration of the row loop (`main.py` lines 146-159): normalize the
three fields, silently skip a blank product, parse price and quantity
(`ValueError` ⇒ diagnostic and skip), else append the line item and print a
progress notice. -/
def processRow (r : RawRow) : Option LineItem × List Ev :=
  let product := normProduct r
  let price := normPrice r
  let qty := normQty r
  if product = [] then (none, [])
  else
    match pyFloat price, pyFloat qty with
    | some p, some q =>
      (some ⟨product, price, qty, format2f (pfMul p q)⟩, [.progress product])
    | _, _ => (none, [.skipDiag r])

/-- The whole row loop: accumulated `table_rows` and console events, in input
order. -/
def processRows : List RawRow → List LineItem × List Ev
  | [] => ([], [])
  | r :: rs =>
    let h := processRow r
    let t := processRows rs
    (h.1.toList ++ t.1, h.2 ++ t.2)

/-- Index of the last occurrence of `name` in the header (later duplicate CSV
columns overwrite earlier ones in `csv.DictReader`). -/
def lastIdxOf : List Str → Str → Option Nat
  | [], _ => none
  | x :: xs, name =>
    match lastIdxOf xs name with
    | some i => some (i + 1)
    | none => if x = name then some 0 else none

/-- Model of `row.get(name)` for a `csv.DictReader` row built from `header` and the
record `fields`: `none` when the header lacks the column or the record is too
short (restval `None`). -/
def getCol (header fields : List Str) (name : Str) : Option Str :=
  match lastIdxOf header name with
  | none => none
  | some i => fields[i]?

/-- The `RawRow` view of one CSV record. -/
def toRawRow (header fields : List Str) : RawRow :=
  ⟨getCol header fields ("product".data),
   getCol header fields ("price".data),
   getCol header fields ("qty".data)⟩

/-- Split an unquoted CSV line at commas. -/
def splitCommasAux : Str → Str → List Str
  | acc, [] => [acc.reverse]
  | acc, c :: cs =>
    if c = ',' then acc.reverse :: splitCommasAux [] cs
    else splitCommasAux (c :: acc) cs

/-- Split an unquoted CSV line at commas. -/
def splitCommas (s : Str) : List Str :=
  splitCommasAux [] s

/-- The `table_rows` list main builds from a parsed CSV. -/
def tableRows (header : List Str) (records : List (List Str)) : List LineItem :=
  (processRows (records.map (toRawRow header))).1

/-- Environment of one `register_arial` call: whether `sys.platform` is
`win32`, whether `arial.ttf` exists, and whether `pdfmetrics.registerFont`
raises. -/
structure FontEnv where
  isWin32 : Bool
  fontFileExists : Bool
  registerRaises : Bool
deriving DecidableEq

/-- Font-registration state: the `_font_registered` global, plus an
instrumentation counter of how many times `pdfmetrics.registerFont` has been
invoked (to express "registered at most once per run"). -/
structure FontState where
  registered : Bool
  attempts : Nat
deriving DecidableEq

/-- Model of `register_arial` (`main.py` lines 41-56) as a state transformer: returns
the boolean result and the new state.  The flag is set only when
`registerFont` succeeds; every path that reaches line 52 counts one attempt. -/
def register_arial (env : FontEnv) (s : FontState) : Bool × FontState :=
  if s.registered then (true, s)
  else if !env.isWin32 then (false, s)
  else if !env.fontFileExists then (false, s)
  else if env.registerRaises then (false, { s with attempts := s.attempts + 1 })
  else (true, { registered := true, attempts := s.attempts + 1 })

/-- The initial `_font_registered = False` state. -/
def initFontState : FontState :=
  ⟨false, 0⟩

/-- The ReportLab calls of `build_invoice_pdf` that can raise, in program
order: the `SimpleDocTemplate`/style constructions, each `Paragraph(text)`,
the `Table`, its `setStyle`, and the final `doc.build` (layout + file write). -/
inductive PdfStep where
  | docTemplate
  | mkParagraph (text : Str)
  | mkTable
  | setTableStyle
  | docBuild
deriving DecidableEq

/-- Environment of one `build_invoice_pdf` call: the outcome the inner
`register_arial()` call yields, and which ReportLab call (if any) raises. -/
structure RenderEnv where
  fontOk : Bool
  raises : PdfStep → Bool

/-- Run one ReportLab call: `error` models a raised exception. -/
def stepCheck (env : RenderEnv) (s : PdfStep) : Except Unit Unit :=
  if env.raises s then .error () else .ok ()

/-- Construct the paragraphs for the given texts, in order, propagating the
first exception. -/
def mkPars (env : RenderEnv) : List Str → Except Unit Unit
  | [] => .ok ()
  | t :: ts =>
    match stepCheck env (.mkParagraph t) with
    | .error e => .error e
    | .ok _ => mkPars env ts

/-- The fixed table header labels. -/
def headerTexts : List Str :=
  ["Товар".data, "Цена".data, "Количество".data, "Сумма".data]

/-- The title paragraph text. -/
def titleText : Str :=
  "Счёт на товары".data

/-- Cell texts of one data row, with the currency and unit suffixes. -/
def rowTexts (it : LineItem) : List Str :=
  [it.product, it.price ++ " ₽".data, it.qty ++ " шт.".data,
   it.total ++ " ₽".data]

/-- Every paragraph text `build_invoice_pdf` constructs, in program order. -/
def docTexts (rows : List LineItem) : List Str :=
  titleText :: headerTexts ++ rows.flatMap rowTexts

/-- Model of `build_invoice_pdf` (`main.py` lines 67-125).  Font failure returns
`false`; then the document template, paragraphs, table and style are
constructed *outside* any `try`, so an exception there propagates
(`Except.error`); only `doc.build` is wrapped in `try/except`, returning
`false` on failure and `true` on success. -/
def build_invoice_pdf (env : RenderEnv) (rows : List LineItem) :
    Except Unit Bool :=
  if !env.fontOk then .ok false
  else
    match stepCheck env .docTemplate with
    | .error e => .error e
    | .ok _ =>
      match mkPars env (docTexts rows) with
      | .error e => .error e
      | .ok _ =>
        match stepCheck env .mkTable with
        | .error e => .error e
        | .ok _ =>
          match stepCheck env .setTableStyle with
          | .error e => .error e
          | .ok _ => if env.raises .docBuild then .ok false else .ok true

/-- Outcome of `main` up to the point where the PDF renderer would run. -/
inductive MainOutcome where
  | schemaError
  | noData (evs : List Ev)
  | toRender (items : List LineItem) (evs : List Ev)
deriving DecidableEq

/-- Model of `main` after the CSV is read (`main.py` lines 137-164): the header check
(`reader.fieldnames` falsy or missing `product` column ⇒ exit 1), the row
loop, and the empty-result check.  `fieldnames` is `none` for an empty file. -/
def mainOnCsv (fieldnames : Option (List Str)) (records : List (List Str)) :
    MainOutcome :=
  match fieldnames with
  | none => .schemaError
  | some h =>
    if h = [] then .schemaError
    else if ("product".data) ∈ h then
      let res := processRows (records.map (toRawRow h))
      if res.1 = [] then .noData res.2 else .toRender res.1 res.2
    else .schemaError

/-- Exit code fixed by a `MainOutcome` (`none` when it still depends on the
render step). -/
def mainExitCode : MainOutcome → Option Nat
  | .schemaError => some 1
  | .noData _ => some 1
  | .toRender _ _ => none

/-- A render environment in which the font is available but every
`Paragraph(...)` construction raises (ReportLab's `Paragraph` does raise,
e.g. on malformed inline markup in the cell text). -/
def envParagraphRaises : RenderEnv :=
  ⟨true, fun s => match s with | .mkParagraph _ => true | _ => false⟩

/-- A render environment in which nothing fails. -/
def envAllOk : RenderEnv :=
  ⟨true, fun _ => false⟩

/-- A font environment where registration always raises. -/
def fontEnvAlwaysRaise : FontEnv := ⟨true, true, true⟩

/-- A font environment where registration succeeds. -/
def fontEnvOk : FontEnv := ⟨true, true, false⟩

/-- A font environment where the font file is missing. -/
def fontEnvNoFile : FontEnv := ⟨true, false, false⟩

/-- Holds iff the string has exactly one `'.'` and ends in `'.'` followed by
exactly two decimal digits: "formatted with exactly two fraction digits". -/
def hasTwoFracDigits (s : Str) : Bool :=
  (s.count '.' == 1) &&
    (match s.reverse with
     | d2 :: d1 :: dot :: _ => d1.isDigit && d2.isDigit && (dot == '.')
     | _ => false)

lemma digitChar_isDigit (n : Nat) : (digitChar n).isDigit = true := by
  unfold digitChar
  split <;> decide

lemma digitChar_ne_dot (n : Nat) : digitChar n ≠ '.' := by
  unfold digitChar
  split <;> decide

lemma natDigitsGo_count_dot (fuel : Nat) :
    ∀ n acc, (natDigitsGo fuel n acc).count '.' = acc.count '.' := by
  induction fuel with
  | zero => intro n acc; rfl
  | succ fuel ih =>
    intro n acc
    unfold natDigitsGo
    split
    · exact List.count_cons_of_ne (fun h => digitChar_ne_dot _ h.symm) acc
    · rw [ih]
      exact List.count_cons_of_ne (fun h => digitChar_ne_dot _ h.symm) acc

lemma natDigits_count_dot (n : Nat) : (natDigits n).count '.' = 0 := by
  rw [natDigits, natDigitsGo_count_dot]
  rfl

/-- Every finite `.2f` rendering has exactly two fraction digits. -/
lemma hasTwoFracDigits_format2f (neg : Bool) (x : ℚ) :
    hasTwoFracDigits (format2f (.finite neg x)) = true := by
  unfold format2f hasTwoFracDigits
  simp only [List.reverse_append, List.reverse_cons, List.reverse_nil,
    List.nil_append, List.cons_append, List.count_append, natDigits_count_dot,
    digitChar_isDigit, Bool.and_true, Bool.true_and]
  cases neg <;>
    simp [List.count_cons, digitChar_ne_dot, fun n => Ne.symm (digitChar_ne_dot n)]

lemma processRows_append (xs ys : List RawRow) :
    processRows (xs ++ ys) =
      ((processRows xs).1 ++ (processRows ys).1,
       (processRows xs).2 ++ (processRows ys).2) := by
  induction xs with
  | nil => simp [processRows]
  | cons r rs ih => simp [processRows, ih]

lemma processRow_eq_some {r : RawRow} {it : LineItem}
    (h : (processRow r).1 = some it) :
    it.product = normProduct r ∧ it.price = normPrice r ∧
    it.qty = normQty r ∧ normProduct r ≠ [] ∧
    (pyFloat (normPrice r)).isSome = true ∧
    (pyFloat (normQty r)).isSome = true := by
  unfold processRow at h
  by_cases hp : normProduct r = []
  · simp [hp] at h
  · simp only [hp, if_false, ite_false] at h
    cases hpp : pyFloat (normPrice r) with
    | none =>
      rw [hpp] at h
      simp at h
    | some p =>
      cases hqq : pyFloat (normQty r) with
      | none =>
        rw [hpp, hqq] at h
        simp at h
      | some q =>
        rw [hpp, hqq] at h
        simp at h
        refine ⟨?_, ?_, ?_, hp, by simp [hpp], by simp [hqq]⟩ <;>
          simp [← h]

lemma mem_processRows {rs : List RawRow} {it : LineItem}
    (h : it ∈ (processRows rs).1) :
    ∃ r ∈ rs, (processRow r).1 = some it := by
  induction rs with
  | nil => simp [processRows] at h
  | cons r rs ih =>
    simp only [processRows, List.mem_append] at h
    rcases h with h | h
    · refine ⟨r, by simp, ?_⟩
      cases ho : (processRow r).1 with
      | none => rw [ho] at h; simp at h
      | some it' => rw [ho] at h; simp at h; subst h; rfl
    · obtain ⟨r', hr', hs⟩ := ih h
      exact ⟨r', by simp [hr'], hs⟩

lemma commaDot_commaDot (c : Char) : commaDot (commaDot c) = commaDot c := by
  unfold commaDot
  by_cases h : c = ',' <;> simp [h]

lemma replComma_replComma (s : Str) : replComma (replComma s) = replComma s := by
  simp [replComma, commaDot_commaDot]

lemma isPySpace_commaDot (c : Char) : isPySpace (commaDot c) = isPySpace c := by
  unfold commaDot
  by_cases h : c = ',' <;> simp [h, isPySpace]

lemma dropWhile_map_of_comp {f : Char → Char} {p : Char → Bool}
    (h : ∀ c, p (f c) = p c) (l : Str) :
    (l.map f).dropWhile p = (l.dropWhile p).map f := by
  induction l with
  | nil => rfl
  | cons a l ih =>
    simp only [List.map_cons, List.dropWhile_cons, h a]
    by_cases hp : p a = true <;> simp [hp, ih]

lemma pyStrip_replComma (s : Str) : pyStrip (replComma s) = replComma (pyStrip s) := by
  unfold pyStrip replComma
  rw [dropWhile_map_of_comp isPySpace_commaDot, ← List.map_reverse,
    dropWhile_map_of_comp isPySpace_commaDot, ← List.map_reverse]

lemma replComma_eq_nil_iff (s : Str) : replComma s = [] ↔ s = [] := by
  simp [replComma]

lemma replComma_norm (o : Option Str) (d : Str) :
    replComma (pyStrip (pyOr (o.map replComma) d)) =
      replComma (pyStrip (pyOr o d)) := by
  cases o with
  | none => rfl
  | some s =>
    by_cases h : s = []
    · simp [pyOr, h, replComma]
    · have h' : replComma s ≠ [] := fun hc => h ((replComma_eq_nil_iff s).mp hc)
      have e1 : pyOr ((some s).map replComma) d = replComma s := by
        simp [pyOr, Option.map, h']
      have e2 : pyOr (some s) d = s := by simp [pyOr, h]
      rw [e1, e2, pyStrip_replComma, replComma_replComma]

lemma commaDot_ne_comma (c : Char) : commaDot c ≠ ',' := by
  unfold commaDot
  by_cases h : c = ',' <;> simp [h]

lemma contains_comma_replComma (s : Str) : (replComma s).contains ',' = false := by
  simp only [replComma]
  simp
  intro x _
  exact commaDot_ne_comma x

/-- C5: every `LineItem` in the sequence `main` would pass to the
renderer has non-empty product text and price and quantity strings that
successfully parse as numbers; rows failing this are excluded before the
document is constructed, for every input CSV. -/
theorem claimC5_invariant (header : List Str) (records : List (List Str))
    (it : LineItem) (h : it ∈ tableRows header records) :
    it.product ≠ [] ∧ (pyFloat it.price).isSome = true ∧
      (pyFloat it.qty).isSome = true := by
  simp only [tableRows] at h
  obtain ⟨r, _, hs⟩ := mem_processRows h
  obtain ⟨hp, hpr, hq, hne, hips, hiqs⟩ := processRow_eq_some hs
  rw [hp, hpr, hq]
  exact ⟨hne, hips, hiqs⟩

/-- Witness for C5 at a concrete CSV. -/
theorem claimC5_witness :
    (⟨"Widget".data, "10.00".data, "2".data, "20.00".data⟩ : LineItem).product ≠ [] ∧
    (pyFloat (⟨"Widget".data, "10.00".data, "2".data, "20.00".data⟩ : LineItem).price).isSome = true ∧
    (pyFloat (⟨"Widget".data, "10.00".data, "2".data, "20.00".data⟩ : LineItem).qty).isSome = true :=
  claimC5_invariant (splitCommas ("product,price,qty".data))
    [splitCommas ("Widget,10.00,2".data)] _ (by decide)

/-- C6: comma decimal separators are treated identically to periods:
replacing the commas of the price and qty fields by periods yields the same
`LineItem` (the diagnostic event may differ, as it quotes the raw row); in
particular price `1,50` and price `1.50` with quantity `1` produce the same
total `1.50`. -/
theorem claimC6_commaPeriod (r : RawRow) :
    (processRow ⟨r.product, r.price.map replComma, r.qty.map replComma⟩).1 =
      (processRow r).1 ∧
    processRow ⟨some ("A".data), some ("1,50".data), some ("1".data)⟩ =
      (some ⟨"A".data, "1.50".data, "1".data, "1.50".data⟩,
       [.progress ("A".data)]) ∧
    processRow ⟨some ("A".data), some ("1.50".data), some ("1".data)⟩ =
      (some ⟨"A".data, "1.50".data, "1".data, "1.50".data⟩,
       [.progress ("A".data)]) := by
  refine ⟨?_, by decide, by decide⟩
  have hp : normProduct ⟨r.product, r.price.map replComma, r.qty.map replComma⟩ =
      normProduct r := rfl
  have hpr : normPrice ⟨r.product, r.price.map replComma, r.qty.map replComma⟩ =
      normPrice r := replComma_norm r.price ['0']
  have hq : normQty ⟨r.product, r.price.map replComma, r.qty.map replComma⟩ =
      normQty r := replComma_norm r.qty ['0']
  simp only [processRow, hp, hpr, hq]
  by_cases h0 : normProduct r = []
  · simp [h0]
  · simp only [if_neg h0]
    cases pyFloat (normPrice r) <;> cases pyFloat (normQty r) <;> rfl

/-- C7: a row with non-empty product whose normalized price or quantity
fails to parse is dropped with exactly one diagnostic quoting the original
raw row, and the surrounding rows are processed unaffected. -/
theorem claimC7_parseFailSkip (r : RawRow) (pre post : List RawRow)
    (hprod : normProduct r ≠ [])
    (hfail : pyFloat (normPrice r) = none ∨ pyFloat (normQty r) = none) :
    processRow r = (none, [Ev.skipDiag r]) ∧
    (processRows (pre ++ r :: post)).1 =
      (processRows pre).1 ++ (processRows post).1 ∧
    (processRows (pre ++ r :: post)).2 =
      (processRows pre).2 ++ Ev.skipDiag r :: (processRows post).2 := by
  have h1 : processRow r = (none, [Ev.skipDiag r]) := by
    simp only [processRow]
    rw [if_neg hprod]
    rcases hfail with h | h
    · rw [h]
    · rw [h]
      cases pyFloat (normPrice r) <;> rfl
  refine ⟨h1, ?_, ?_⟩ <;> rw [processRows_append] <;> simp [processRows, h1]

/-- Witness for C7: a non-numeric price row between two valid rows. -/
theorem claimC7_witness :
    processRow ⟨some ("B".data), some ("x1".data), some ("2".data)⟩ =
      (none, [Ev.skipDiag ⟨some ("B".data), some ("x1".data), some ("2".data)⟩]) ∧
    (processRows ([⟨some ("A".data), some ("1".data), some ("1".data)⟩] ++
        ⟨some ("B".data), some ("x1".data), some ("2".data)⟩ ::
        [⟨some ("C".data), some ("2".data), some ("2".data)⟩])).1 =
      (processRows [⟨some ("A".data), some ("1".data), some ("1".data)⟩]).1 ++
        (processRows [⟨some ("C".data), some ("2".data), some ("2".data)⟩]).1 ∧
    (processRows ([⟨some ("A".data), some ("1".data), some ("1".data)⟩] ++
        ⟨some ("B".data), some ("x1".data), some ("2".data)⟩ ::
        [⟨some ("C".data), some ("2".data), some ("2".data)⟩])).2 =
      (processRows [⟨some ("A".data), some ("1".data), some ("1".data)⟩]).2 ++
        Ev.skipDiag ⟨some ("B".data), some ("x1".data), some ("2".data)⟩ ::
        (processRows [⟨some ("C".data), some ("2".data), some ("2".data)⟩]).2 :=
  claimC7_parseFailSkip _ _ _ (by decide) (Or.inl (by decide))

/-- C8: a row whose product is empty after trimming is dropped silently
(no diagnostic, no progress line), whatever its price and qty fields hold,
and the surrounding rows are processed unaffected. -/
theorem claimC8_blankProductSilent (r : RawRow) (pre post : List RawRow)
    (hprod : normProduct r = []) :
    processRow r = (none, []) ∧
    (processRows (pre ++ r :: post)).1 =
      (processRows pre).1 ++ (processRows post).1 ∧
    (processRows (pre ++ r :: post)).2 =
      (processRows pre).2 ++ (processRows post).2 := by
  have h1 : processRow r = (none, []) := by
    simp [processRow, hprod]
  refine ⟨h1, ?_, ?_⟩ <;> rw [processRows_append] <;> simp [processRows, h1]

/-- Witness for C8: a whitespace-only product with an unparsable price. -/
theorem claimC8_witness :
    processRow ⟨some ("  ".data), some ("xx".data), some ("1".data)⟩ = (none, []) ∧
    (processRows ([⟨some ("A".data), some ("1".data), some ("1".data)⟩] ++
        ⟨some ("  ".data), some ("xx".data), some ("1".data)⟩ ::
        [⟨some ("C".data), some ("2".data), some ("2".data)⟩])).1 =
      (processRows [⟨some ("A".data), some ("1".data), some ("1".data)⟩]).1 ++
        (processRows [⟨some ("C".data), some ("2".data), some ("2".data)⟩]).1 ∧
    (processRows ([⟨some ("A".data), some ("1".data), some ("1".data)⟩] ++
        ⟨some ("  ".data), some ("xx".data), some ("1".data)⟩ ::
        [⟨some ("C".data), some ("2".data), some ("2".data)⟩])).2 =
      (processRows [⟨some ("A".data), some ("1".data), some ("1".data)⟩]).2 ++
        (processRows [⟨some ("C".data), some ("2".data), some ("2".data)⟩]).2 :=
  claimC8_blankProductSilent _ _ _ (by decide)

/-- C10: every comma of price and qty is replaced by a period, not just a
decimal separator: normalized price and qty never contain a comma; a
thousands-separated `1,000` with quantity `1` yields total `1.00`, and
`1,234.56` becomes unparsable, so the row is dropped with a diagnostic. -/
theorem claimC10_replaceAllCommas (r : RawRow) :
    (normPrice r).contains ',' = false ∧
    (normQty r).contains ',' = false ∧
    processRow ⟨some ("A".data), some ("1,000".data), some ("1".data)⟩ =
      (some ⟨"A".data, "1.000".data, "1".data, "1.00".data⟩,
       [.progress ("A".data)]) ∧
    processRow ⟨some ("A".data), some ("1,234.56".data), some ("1".data)⟩ =
      (none, [.skipDiag ⟨some ("A".data), some ("1,234.56".data), some ("1".data)⟩]) :=
  ⟨contains_comma_replComma _, contains_comma_replComma _, by decide, by decide⟩

/-- C3: a missing (`None`) or blank (`""`) price or qty field is replaced
by the default `"0"` before parsing, so such a row with a non-empty product
(and a parsable other field) is kept with that component the number zero. -/
theorem claimC3_defaultZero (r : RawRow) :
    ((r.price = none ∨ r.price = some []) → normPrice r = ['0']) ∧
    ((r.qty = none ∨ r.qty = some []) → normQty r = ['0']) ∧
    (normProduct r ≠ [] → (r.price = none ∨ r.price = some []) →
      ∀ q, pyFloat (normQty r) = some q →
        processRow r = (some ⟨normProduct r, ['0'], normQty r,
          format2f (pfMul (.finite false (mkRat 0 1)) q)⟩,
          [.progress (normProduct r)])) ∧
    (normProduct r ≠ [] → (r.qty = none ∨ r.qty = some []) →
      ∀ p, pyFloat (normPrice r) = some p →
        processRow r = (some ⟨normProduct r, normPrice r, ['0'],
          format2f (pfMul p (.finite false (mkRat 0 1)))⟩,
          [.progress (normProduct r)])) := by
  have hpz : (r.price = none ∨ r.price = some []) → normPrice r = ['0'] := by
    rintro (h | h) <;> simp only [normPrice, h] <;> decide
  have hqz : (r.qty = none ∨ r.qty = some []) → normQty r = ['0'] := by
    rintro (h | h) <;> simp only [normQty, h] <;> decide
  have hz : pyFloat ['0'] = some (.finite false (mkRat 0 1)) := by decide
  refine ⟨hpz, hqz, ?_, ?_⟩
  · intro hne hmiss q hq
    simp only [processRow, if_neg hne, hpz hmiss, hz, hq]
  · intro hne hmiss p hp
    simp only [processRow, if_neg hne, hqz hmiss, hz, hp]

/-- Witness for C3: a row with a missing price and qty `2`. -/
theorem claimC3_witness :
    processRow ⟨some ("A".data), none, some ("2".data)⟩ =
      (some ⟨"A".data, ['0'], "2".data,
        format2f (pfMul (.finite false (mkRat 0 1)) (.finite false (mkRat 2 1)))⟩,
       [.progress ("A".data)]) :=
  (claimC3_defaultZero ⟨some ("A".data), none, some ("2".data)⟩).2.2.1
    (by decide) (Or.inl rfl) (.finite false (mkRat 2 1)) (by decide)

set_option maxRecDepth 8000 in
/-- C4 counterexample: a row whose price and quantity both parse (to finite
doubles) can still get a total that is not `p * q` rounded to two fraction
digits: the double product of `1e200` and `1e200` overflows, the row is kept,
and its total is rendered as `inf`, which has no fraction digits at all. -/
theorem claimC4_counterexample :
    processRow ⟨some ("A".data), some ("1e200".data), some ("1e200".data)⟩ =
      (some ⟨"A".data, "1e200".data, "1e200".data, "inf".data⟩,
       [.progress ("A".data)]) ∧
    (pyFloat ("1e200".data)).isSome = true ∧
    hasTwoFracDigits ("inf".data) = false := by
  refine ⟨by decide, by decide, by decide⟩

/-- C4 (amended): a valid row is kept with its trimmed, comma-normalized
price and qty strings retained, and a total that depends only on the parsed
doubles: the binary64 product rendered by `%.2f`.  Whenever that product is
a finite double, the rendering is its exact value rounded half-to-even to
exactly two fraction digits (with the product's sign bit, so `-0.00` can
appear); an overflowed or nan product renders as `inf`/`nan` instead.
Concretely: `2.675 * 1` gives `2.67` (the nearest double to 2.675 is just
below it), `0 * -2` gives `-0.00`, and the spec's two-row CSV yields exactly
the two data rows with totals `20.00` and `15.00` in input order. -/
theorem claimC4_totals :
    (∀ (r : RawRow) (s1 s2 : Bool) (m1 m2 : ℚ), normProduct r ≠ [] →
      pyFloat (normPrice r) = some (.finite s1 m1) →
      pyFloat (normQty r) = some (.finite s2 m2) →
      processRow r = (some ⟨normProduct r, normPrice r, normQty r,
          format2f (pfMul (.finite s1 m1) (.finite s2 m2))⟩,
        [.progress (normProduct r)]) ∧
      ∀ (sp : Bool) (mp : ℚ),
        pfMul (.finite s1 m1) (.finite s2 m2) = .finite sp mp →
        hasTwoFracDigits (format2f (.finite sp mp)) = true) ∧
    processRow ⟨some ("B".data), some ("2.675".data), some ("1".data)⟩ =
      (some ⟨"B".data, "2.675".data, "1".data, "2.67".data⟩,
       [.progress ("B".data)]) ∧
    processRow ⟨some ("Z".data), some ("0".data), some ("-2".data)⟩ =
      (some ⟨"Z".data, "0".data, "-2".data, "-0.00".data⟩,
       [.progress ("Z".data)]) ∧
    tableRows (splitCommas ("product,price,qty".data))
      [splitCommas ("Widget,10.00,2".data), splitCommas ("Gadget,5,3".data)] =
    [⟨"Widget".data, "10.00".data, "2".data, "20.00".data⟩,
     ⟨"Gadget".data, "5".data, "3".data, "15.00".data⟩] := by
  refine ⟨?_, by decide, by decide, by decide⟩
  intro r s1 s2 m1 m2 hne hp hq
  refine ⟨?_, fun sp mp _ => hasTwoFracDigits_format2f sp mp⟩
  simp only [processRow, if_neg hne, hp, hq]

/-- Witness for C4 (amended) at a concrete row: price 2.5, qty 4, product the
finite double 10, total `10.00`. -/
theorem claimC4_witness :
    processRow ⟨some ("K".data), some ("2.5".data), some ("4".data)⟩ =
      (some ⟨"K".data, "2.5".data, "4".data,
        format2f (pfMul (.finite false (mkRat 5 2)) (.finite false (mkRat 4 1)))⟩,
       [.progress ("K".data)]) ∧
    hasTwoFracDigits (format2f (.finite false (mkRat 10 1))) = true :=
  ⟨(claimC4_totals.1 ⟨some ("K".data), some ("2.5".data), some ("4".data)⟩
      false false (mkRat 5 2) (mkRat 4 1) (by decide) (by decide) (by decide)).1,
   (claimC4_totals.1 ⟨some ("K".data), some ("2.5".data), some ("4".data)⟩
      false false (mkRat 5 2) (mkRat 4 1) (by decide) (by decide) (by decide)).2
     false (mkRat 10 1) (by decide)⟩

/-- C9: when the header lacks a `product` column, `main` reports a schema
error and exits with code 1, for every list of data records: no row is
processed and no row-level output is produced. -/
theorem claimC9_schemaCheck (h : List Str) (records : List (List Str))
    (hmiss : "product".data ∉ h) :
    mainOnCsv (some h) records = .schemaError ∧
    mainExitCode (mainOnCsv (some h) records) = some 1 := by
  have hres : mainOnCsv (some h) records = .schemaError := by
    simp only [mainOnCsv]
    by_cases h0 : h = []
    · simp [h0]
    · simp [h0, hmiss]
  exact ⟨hres, by rw [hres]; rfl⟩

/-- Witness for C9: header `name` only. -/
theorem claimC9_witness :
    mainOnCsv (some [ "name".data ]) [[ "Widget".data, "10".data ]] =
      .schemaError ∧
    mainExitCode (mainOnCsv (some [ "name".data ])
      [[ "Widget".data, "10".data ]]) = some 1 :=
  claimC9_schemaCheck [ "name".data ] [[ "Widget".data, "10".data ]] (by decide)

/-- C1 counterexample: with the font registered, a failing `Paragraph`
construction — a document-construction step — propagates an exception out of
`build_invoice_pdf` instead of returning `false`: the construction of the
title/header/row paragraphs, the table and its style happen outside the
`try/except`, which guards only `doc.build`. -/
theorem claimC1_counterexample :
    envParagraphRaises.fontOk = true ∧
    build_invoice_pdf envParagraphRaises [] = .error () :=
  ⟨rfl, rfl⟩

/-- C1 (amended): when no pre-`build` construction step raises,
`build_invoice_pdf` never raises: it returns `true` on success and `false`
when the font is unavailable or `doc.build` (layout and file write) fails —
only that last step's failures are swallowed at the boundary. -/
theorem claimC1_buildBoundary (env : RenderEnv) (rows : List LineItem)
    (hdoc : env.raises .docTemplate = false)
    (hpar : ∀ t ∈ docTexts rows, env.raises (.mkParagraph t) = false)
    (htab : env.raises .mkTable = false)
    (hsty : env.raises .setTableStyle = false) :
    build_invoice_pdf env rows = .ok (env.fontOk && !env.raises .docBuild) := by
  have hmk : ∀ ts, (∀ t ∈ ts, env.raises (.mkParagraph t) = false) →
      mkPars env ts = .ok () := by
    intro ts
    induction ts with
    | nil => intro _; rfl
    | cons t ts ih =>
      intro hall
      have h0 : env.raises (.mkParagraph t) = false := hall t (by simp)
      have h1 : mkPars env ts = .ok () :=
        ih fun t' ht' => hall t' (by simp [ht'])
      simp [mkPars, stepCheck, h0, h1]
  cases hf : env.fontOk
  · simp [build_invoice_pdf, hf]
  · have hps := hmk (docTexts rows) hpar
    simp only [build_invoice_pdf, hf, Bool.not_true, Bool.false_eq_true,
      if_false, stepCheck, hdoc, htab, hsty, hps, Bool.true_and]
    cases hb : env.raises .docBuild <;> simp

/-- Witness for C1 (amended): nothing fails, one data row, result `ok true`. -/
theorem claimC1_witness :
    build_invoice_pdf envAllOk
      [⟨"A".data, "1".data, "2".data, "2.00".data⟩] = .ok true := by
  have h := claimC1_buildBoundary envAllOk
    [⟨"A".data, "1".data, "2".data, "2.00".data⟩]
    rfl (fun t _ => rfl) rfl rfl
  simpa using h

/-- C2 counterexample: `register_arial` does not cache failures: after a
first call that fails (returning `false`), a second call attempts
`registerFont` again (the attempt counter reaches 2 in an unchanged failing
environment), and when the first failure was a missing font file a later call
can even return a different result (`true`). -/
theorem claimC2_counterexample :
    (register_arial fontEnvAlwaysRaise initFontState).1 = false ∧
    (register_arial fontEnvAlwaysRaise initFontState).2.attempts = 1 ∧
    (register_arial fontEnvAlwaysRaise
        (register_arial fontEnvAlwaysRaise initFontState).2).2.attempts = 2 ∧
    (register_arial fontEnvNoFile initFontState).1 = false ∧
    (register_arial fontEnvOk
        (register_arial fontEnvNoFile initFontState).2).1 = true := by
  decide

/-- C2 (amended): `register_arial` caches success only: once a call has
returned `true`, every subsequent call (in any environment) returns `true`
with the state unchanged — in particular without attempting font
registration again, so a successful registration happens at most once per
run.  Failed calls are not cached and are retried. -/
theorem claimC2_cachesSuccess (e e' : FontEnv) (s : FontState)
    (h : (register_arial e s).1 = true) :
    register_arial e' (register_arial e s).2 = (true, (register_arial e s).2) := by
  by_cases hr : s.registered
  · simp [register_arial, hr]
  · cases hw : e.isWin32
    · simp [register_arial, hr, hw] at h
    · cases hf : e.fontFileExists
      · simp [register_arial, hr, hw, hf] at h
      · cases hraise : e.registerRaises
        · simp [register_arial, hr, hw, hf, hraise]
        · simp [register_arial, hr, hw, hf, hraise] at h

/-- Witness for C2 (amended): after a successful registration, a call in an
environment with no font file still returns `true` with unchanged state. -/
theorem claimC2_witness :
    register_arial fontEnvNoFile (register_arial fontEnvOk initFontState).2 =
      (true, (register_arial fontEnvOk initFontState).2) :=
  claimC2_cachesSuccess fontEnvOk fontEnvNoFile initFontState (by decide)

